import Mathlib

/-!
# Verification of `0x02-redis_basic/web.py`

Shallow embedding of the caching/counting decorator `count_requests` from
`web.py`.  The Redis store is modelled as an explicit state (`Store`) holding
the counters, the cache entries with their absolute expiry times, and a clock
used to decide expiry.  The wrapped fetch function (`method`) is a pure
function `String → Except ε String`; a failing fetch is an `Except.error`.

The Python wrapper is

```
def wrapper(url):
    r.incr(f"count:{url}")
    cache_html = r.get(f"cached:{url}")
    if cache_html:
        return cache_html.decode('utf-8')
    html = method(url)
    r.setex(f"cached:{url}", 10, html)
    return html
```

Note the truthiness test `if cache_html:`: a cached *empty* payload (`b""`)
is falsy in Python, so a present-but-empty cache entry takes the miss path.
The model keeps this faithfully (`pyTruthy`).

Cache payloads are modelled as the `String` they encode: `redis-py` encodes
the `str` argument of `setex` to UTF-8 bytes and the wrapper decodes them
back with `.decode('utf-8')`.  The byte level is modelled separately by
`utf8EncodeList`/`utf8DecodeList`, with theorems showing the round trip is
the identity and that byte-level truthiness (non-empty bytes) coincides with
string-level truthiness (non-empty string), justifying this view.
-/

/-- State of the Redis store: per-key counters (`incr` targets), per-key
cache entries carrying their absolute expiry time, and the current clock. -/
structure Store where
  counters : String → Nat
  cache : String → Option (String × Nat)
  clock : Nat

/-- `r.incr(k)`: create-if-absent then add 1. -/
def Store.incr (s : Store) (k : String) : Store :=
  { s with counters := fun q => if q = k then s.counters q + 1 else s.counters q }

/-- `r.get(k)`: the payload if an entry is present and unexpired, else absent.
An entry written at time `t` with TTL `ttl` has expiry `t + ttl` and is
visible exactly while `clock < t + ttl`. -/
def Store.get (s : Store) (k : String) : Option String :=
  match s.cache k with
  | none => none
  | some (c, e) => if s.clock < e then some c else none

/-- `r.setex(k, ttl, v)`: unconditional overwrite; the expiry timer restarts
from the current clock on every write. -/
def Store.setex (s : Store) (k : String) (ttl : Nat) (v : String) : Store :=
  { s with cache := fun q => if q = k then some (v, s.clock + ttl) else s.cache q }

/-- Advance the clock by `d` time units (models time passing between calls). -/
def Store.advance (s : Store) (d : Nat) : Store :=
  { s with clock := s.clock + d }

/-- Python truthiness of the value returned by `r.get`: `None` and the empty
byte string are falsy, every non-empty payload is truthy. -/
def pyTruthy : Option String → Bool
  | none => false
  | some c => c ≠ ""

/-- Outcome of one call to the wrapped function: the returned value or the
propagated fetch failure, the store state after the call, and how many times
the underlying fetch function was invoked during the call (instrumentation
used to state "the fetch function is (not) invoked"). -/
structure CallResult (ε : Type) where
  result : Except ε String
  store : Store
  fetchCalls : Nat

/-- Miss path of the wrapper (fall-through after the `if cache_html:` test):
`html = method(url); r.setex(f"cached:{url}", 10, html); return html`; a
failing fetch propagates and performs no cache write. -/
def wrapperMiss (method : String → Except ε String) (s1 : Store) (url : String) :
    CallResult ε :=
  match method url with
  | .error e => ⟨.error e, s1, 1⟩
  | .ok html => ⟨.ok html, s1.setex ("cached:" ++ url) 10 html, 1⟩

/-- The decorated function `wrapper` from `count_requests` in `web.py`:
increment `count:{url}`, read `cached:{url}`, return it if truthy, otherwise
fetch, cache with TTL 10 and return.  The hit path returns the cached payload
(the UTF-8 decoding of the stored bytes; see `utf8DecodeList_utf8EncodeList`). -/
def wrapper (method : String → Except ε String) (s : Store) (url : String) :
    CallResult ε :=
  let s1 := s.incr ("count:" ++ url)
  match s1.get ("cached:" ++ url) with
  | some c => if c = "" then wrapperMiss method s1 url else ⟨.ok c, s1, 0⟩
  | none => wrapperMiss method s1 url

/-- A sequence of calls to the wrapped function on a fixed `url`: each step
advances the clock by a delay and runs one call with its own fetch function
(so hits, misses and fetch failures can be mixed freely). -/
def runSeq (calls : List (Nat × (String → Except ε String))) (s : Store)
    (url : String) : Store :=
  match calls with
  | [] => s
  | (d, F) :: rest => runSeq rest (wrapper F (s.advance d) url).store url

/-- An initial store: all counters zero, no cache entries, clock 0. -/
def Store.empty : Store := ⟨fun _ => 0, fun _ => none, 0⟩

/-! ## Basic lemmas about the store operations -/

@[simp] theorem Store.get_incr (s : Store) (k q : String) :
    (s.incr k).get q = s.get q := rfl

@[simp] theorem Store.cache_incr (s : Store) (k : String) :
    (s.incr k).cache = s.cache := rfl

@[simp] theorem Store.clock_incr (s : Store) (k : String) :
    (s.incr k).clock = s.clock := rfl

@[simp] theorem Store.counters_incr_self (s : Store) (k : String) :
    (s.incr k).counters k = s.counters k + 1 := by
  simp [Store.incr]

theorem Store.counters_incr_other (s : Store) (k q : String) (h : q ≠ k) :
    (s.incr k).counters q = s.counters q := by
  simp [Store.incr, h]

@[simp] theorem Store.counters_setex (s : Store) (k : String) (ttl : Nat) (v : String) :
    (s.setex k ttl v).counters = s.counters := rfl

@[simp] theorem Store.clock_setex (s : Store) (k : String) (ttl : Nat) (v : String) :
    (s.setex k ttl v).clock = s.clock := rfl

@[simp] theorem Store.cache_setex_self (s : Store) (k : String) (ttl : Nat) (v : String) :
    (s.setex k ttl v).cache k = some (v, s.clock + ttl) := by
  simp [Store.setex]

theorem Store.cache_setex_other (s : Store) (k : String) (ttl : Nat) (v : String)
    (q : String) (h : q ≠ k) : (s.setex k ttl v).cache q = s.cache q := by
  simp [Store.setex, h]

@[simp] theorem Store.counters_advance (s : Store) (d : Nat) :
    (s.advance d).counters = s.counters := rfl

@[simp] theorem Store.cache_advance (s : Store) (d : Nat) :
    (s.advance d).cache = s.cache := rfl

@[simp] theorem Store.clock_advance (s : Store) (d : Nat) :
    (s.advance d).clock = s.clock + d := rfl

/-- Unfolding `Store.get` when an entry is present. -/
theorem Store.get_eq_of_cache (s : Store) (k c : String) (e : Nat)
    (h : s.cache k = some (c, e)) :
    s.get k = if s.clock < e then some c else none := by
  simp [Store.get, h]

/-- Unfolding `Store.get` when no entry is present. -/
theorem Store.get_eq_none_of_cache (s : Store) (k : String)
    (h : s.cache k = none) : s.get k = none := by
  simp [Store.get, h]

/-! ## Case-analysis lemmas for the wrapper -/

/-- Hit path: a present, unexpired, non-empty (truthy) entry is returned and
the only state change is the counter increment. -/
theorem wrapper_eq_hit {ε : Type} (F : String → Except ε String) (s : Store)
    (url c : String) (hg : s.get ("cached:" ++ url) = some c) (hc : c ≠ "") :
    wrapper F s url = ⟨.ok c, s.incr ("count:" ++ url), 0⟩ := by
  simp only [wrapper, Store.get_incr]
  rw [hg]
  simp [hc]

/-- Miss path, absent or expired entry. -/
theorem wrapper_eq_miss_none {ε : Type} (F : String → Except ε String) (s : Store)
    (url : String) (hg : s.get ("cached:" ++ url) = none) :
    wrapper F s url = wrapperMiss F (s.incr ("count:" ++ url)) url := by
  simp only [wrapper, Store.get_incr]
  rw [hg]

/-- Miss path taken on a present but *empty* entry: Python's `if cache_html:`
is false on `b""`, so the wrapper falls through to the fetch. -/
theorem wrapper_eq_miss_empty {ε : Type} (F : String → Except ε String) (s : Store)
    (url : String) (hg : s.get ("cached:" ++ url) = some "") :
    wrapper F s url = wrapperMiss F (s.incr ("count:" ++ url)) url := by
  simp only [wrapper, Store.get_incr]
  rw [hg]
  simp

/-- On a fetch failure, the miss path propagates the error and writes nothing. -/
theorem wrapperMiss_error {ε : Type} (F : String → Except ε String) (s1 : Store)
    (url : String) (e : ε) (h : F url = .error e) :
    wrapperMiss F s1 url = ⟨.error e, s1, 1⟩ := by
  simp [wrapperMiss, h]

/-- On a fetch success, the miss path caches the result with TTL 10 and returns it. -/
theorem wrapperMiss_ok {ε : Type} (F : String → Except ε String) (s1 : Store)
    (url html : String) (h : F url = .ok html) :
    wrapperMiss F s1 url = ⟨.ok html, s1.setex ("cached:" ++ url) 10 html, 1⟩ := by
  simp [wrapperMiss, h]

/-- Every call increments the counter of its key by exactly one, on every path:
hit, miss with successful fetch, and miss with failing fetch. -/
theorem wrapper_counters_self {ε : Type} (F : String → Except ε String) (s : Store)
    (url : String) :
    (wrapper F s url).store.counters ("count:" ++ url)
      = s.counters ("count:" ++ url) + 1 := by
  rcases hg : s.get ("cached:" ++ url) with _ | c
  · rw [wrapper_eq_miss_none F s url hg]
    rcases hF : F url with e | html
    · rw [wrapperMiss_error F _ url e hF]
      simp
    · rw [wrapperMiss_ok F _ url html hF]
      simp
  · by_cases hc : c = ""
    · subst hc
      rw [wrapper_eq_miss_empty F s url hg]
      rcases hF : F url with e | html
      · rw [wrapperMiss_error F _ url e hF]
        simp
      · rw [wrapperMiss_ok F _ url html hF]
        simp
    · rw [wrapper_eq_hit F s url c hg hc]
      simp

/-- The clock is never changed by a call. -/
theorem wrapper_clock {ε : Type} (F : String → Except ε String) (s : Store)
    (url : String) : (wrapper F s url).store.clock = s.clock := by
  rcases hg : s.get ("cached:" ++ url) with _ | c
  · rw [wrapper_eq_miss_none F s url hg]
    rcases hF : F url with e | html
    · rw [wrapperMiss_error F _ url e hF]
      rfl
    · rw [wrapperMiss_ok F _ url html hF]
      simp
  · by_cases hc : c = ""
    · subst hc
      rw [wrapper_eq_miss_empty F s url hg]
      rcases hF : F url with e | html
      · rw [wrapperMiss_error F _ url e hF]
        rfl
      · rw [wrapperMiss_ok F _ url html hF]
        simp
    · rw [wrapper_eq_hit F s url c hg hc]
      rfl

/-- Every call is either a hit on a truthy entry or runs the miss path. -/
theorem wrapper_cases {ε : Type} (F : String → Except ε String) (s : Store)
    (url : String) :
    (∃ c, s.get ("cached:" ++ url) = some c ∧ c ≠ "" ∧
        wrapper F s url = ⟨.ok c, s.incr ("count:" ++ url), 0⟩)
    ∨ wrapper F s url = wrapperMiss F (s.incr ("count:" ++ url)) url := by
  rcases hg : s.get ("cached:" ++ url) with _ | c
  · exact Or.inr (wrapper_eq_miss_none F s url hg)
  · by_cases hc : c = ""
    · subst hc
      exact Or.inr (wrapper_eq_miss_empty F s url hg)
    · exact Or.inl ⟨c, rfl, hc, wrapper_eq_hit F s url c hg hc⟩

/-- Counters of keys other than `count:{url}` are untouched by a call. -/
theorem wrapper_counters_other {ε : Type} (F : String → Except ε String) (s : Store)
    (url q : String) (h : q ≠ "count:" ++ url) :
    (wrapper F s url).store.counters q = s.counters q := by
  rcases wrapper_cases F s url with ⟨c, _, _, hw⟩ | hw
  · rw [hw]
    exact Store.counters_incr_other s _ q h
  · rw [hw]
    rcases hF : F url with e | html
    · rw [wrapperMiss_error F _ url e hF]
      exact Store.counters_incr_other s _ q h
    · rw [wrapperMiss_ok F _ url html hF]
      simp [Store.counters_incr_other s _ q h]

/-- Cache entries of keys other than `cached:{url}` are untouched by a call. -/
theorem wrapper_cache_other {ε : Type} (F : String → Except ε String) (s : Store)
    (url q : String) (h : q ≠ "cached:" ++ url) :
    (wrapper F s url).store.cache q = s.cache q := by
  rcases wrapper_cases F s url with ⟨c, _, _, hw⟩ | hw
  · rw [hw]
    rfl
  · rw [hw]
    rcases hF : F url with e | html
    · rw [wrapperMiss_error F _ url e hF]
      rfl
    · rw [wrapperMiss_ok F _ url html hF]
      simpa using Store.cache_setex_other (s.incr ("count:" ++ url)) _ 10 html q h

/-- Appending distinct suffixes to the same prefix yields distinct strings
(so the Store keys `count:{k}` / `cached:{k}` of distinct `k` are distinct). -/
theorem append_ne_append_of_ne (p : String) {a b : String} (h : a ≠ b) :
    p ++ a ≠ p ++ b := by
  intro heq
  apply h
  apply String.ext
  have hd := congrArg String.data heq
  rw [String.data_append, String.data_append] at hd
  exact List.append_cancel_left hd

/-! ## The claims -/

/-- C1: for every key and every sequence of `n` calls to the wrapped function
on that key — any mix of cache hits, misses and fetch failures, with arbitrary
delays between calls — the counter entry for the key grows by exactly 1 per
call, so after the sequence it equals its value before plus `n`. -/
theorem counter_monotonicity {ε : Type}
    (calls : List (Nat × (String → Except ε String))) (s : Store) (url : String) :
    (runSeq calls s url).counters ("count:" ++ url)
      = s.counters ("count:" ++ url) + calls.length := by
  induction calls generalizing s with
  | nil => rfl
  | cons hd tl ih =>
    rcases hd with ⟨d, F⟩
    show (runSeq tl (wrapper F (s.advance d) url).store url).counters ("count:" ++ url) = _
    rw [ih, wrapper_counters_self]
    simp [List.length_cons]
    omega

/-- C4: if the underlying fetch function is consulted (cache miss: no truthy
entry) and fails on the key, the wrapped function propagates that same
failure, the counter for the key has nevertheless been incremented by exactly
1, and the cache is completely unchanged (no write for any key, in particular
none for this key). -/
theorem fetch_failure_propagates {ε : Type} (F : String → Except ε String)
    (s : Store) (url : String) (e : ε)
    (hmiss : pyTruthy (s.get ("cached:" ++ url)) = false)
    (hF : F url = .error e) :
    (wrapper F s url).result = .error e ∧
    (wrapper F s url).store.counters ("count:" ++ url)
      = s.counters ("count:" ++ url) + 1 ∧
    (wrapper F s url).store.cache = s.cache := by
  have hw : wrapper F s url = wrapperMiss F (s.incr ("count:" ++ url)) url := by
    rcases hg : s.get ("cached:" ++ url) with _ | c
    · exact wrapper_eq_miss_none F s url hg
    · rw [hg] at hmiss
      simp [pyTruthy] at hmiss
      subst hmiss
      exact wrapper_eq_miss_empty F s url hg
  rw [hw, wrapperMiss_error F _ url e hF]
  refine ⟨rfl, ?_, rfl⟩
  simp

/-- A store holding a present, unexpired but *empty* cache entry for key `k`:
entry `("", 5)` at clock 0. -/
def emptyEntryStore : Store :=
  ⟨fun _ => 0, fun q => if q = "cached:k" then some ("", 5) else none, 0⟩

/-- A fetch function that always succeeds with `"x"`. -/
def fetchX : String → Except Unit String := fun _ => .ok "x"

/-- C2 counterexample: in `emptyEntryStore` the cache entry for `k` is present
and unexpired, yet the call invokes the underlying fetch function (once, not
zero times), returns the fresh `"x"` instead of the entry's content `""`, and
overwrites the cache entry — because Python's `if cache_html:` is false on the
empty payload `b""`. -/
theorem hit_no_side_effects_counterexample :
    emptyEntryStore.cache "cached:k" = some ("", 5) ∧
    emptyEntryStore.clock < 5 ∧
    (wrapper fetchX emptyEntryStore "k").fetchCalls = 1 ∧
    (wrapper fetchX emptyEntryStore "k").result = .ok "x" ∧
    (wrapper fetchX emptyEntryStore "k").store.cache "cached:k" = some ("x", 10) :=
  ⟨rfl, by decide, rfl, rfl, rfl⟩

/-- C2 (amended: the cache entry must also be non-empty, since the wrapper
tests the payload with Python truthiness): for every key whose cache entry is
present, unexpired and non-empty, the call returns that entry's content
verbatim, does not invoke the underlying fetch function, and its only effect
on the store is the counter increment. -/
theorem hit_no_side_effects {ε : Type} (F : String → Except ε String) (s : Store)
    (url c : String) (e : Nat) (hc : s.cache ("cached:" ++ url) = some (c, e))
    (he : s.clock < e) (hne : c ≠ "") :
    (wrapper F s url).result = .ok c ∧
    (wrapper F s url).fetchCalls = 0 ∧
    (wrapper F s url).store = s.incr ("count:" ++ url) := by
  have hg : s.get ("cached:" ++ url) = some c := by
    rw [Store.get_eq_of_cache s _ c e hc]
    simp [he]
  rw [wrapper_eq_hit F s url c hg hne]
  exact ⟨rfl, rfl, rfl⟩

/-- A store holding a present, unexpired, non-empty cache entry for key `A`. -/
def hitStore : Store :=
  ⟨fun _ => 0, fun q => if q = "cached:A" then some ("hello", 5) else none, 0⟩

/-- Witness for C2 at a concrete input. -/
theorem hit_no_side_effects_witness :
    (wrapper fetchX hitStore "A").result = .ok "hello" ∧
    (wrapper fetchX hitStore "A").fetchCalls = 0 ∧
    (wrapper fetchX hitStore "A").store = hitStore.incr ("count:" ++ "A") :=
  hit_no_side_effects fetchX hitStore "A" "hello" 5 rfl (by decide) (by decide)

/-- C3: for a key whose cache entry is absent or expired, the call invokes the
underlying fetch function exactly once, writes exactly its result to the cache
slot for the key with the configured TTL (expiry `clock + 10`, overwriting any
prior value), and returns that same fresh content. -/
theorem miss_fetches_and_caches {ε : Type} (F : String → Except ε String)
    (s : Store) (url html : String)
    (hg : s.get ("cached:" ++ url) = none) (hF : F url = .ok html) :
    (wrapper F s url).result = .ok html ∧
    (wrapper F s url).fetchCalls = 1 ∧
    (wrapper F s url).store.cache ("cached:" ++ url) = some (html, s.clock + 10) := by
  rw [wrapper_eq_miss_none F s url hg, wrapperMiss_ok F _ url html hF]
  refine ⟨rfl, rfl, ?_⟩
  simp

/-- Witness for C3 at a concrete input: empty store, fetch returning `"hello"`. -/
theorem miss_fetches_and_caches_witness :
    (wrapper (fun _ => (.ok "hello" : Except Unit String)) Store.empty "A").result
        = .ok "hello" ∧
    (wrapper (fun _ => (.ok "hello" : Except Unit String)) Store.empty "A").fetchCalls
        = 1 ∧
    (wrapper (fun _ => (.ok "hello" : Except Unit String)) Store.empty "A").store.cache
        ("cached:" ++ "A") = some ("hello", Store.empty.clock + 10) :=
  miss_fetches_and_caches (fun _ => (.ok "hello" : Except Unit String))
    Store.empty "A" "hello" rfl rfl

/-- C7: a call on key `k1` modifies only the counter entry `count:{k1}` and
the cache entry `cached:{k1}`; for any distinct key `k2` the counter and cache
entries of `k2` — and in fact every Store key other than the two derived from
`k1` — and the clock are unchanged. -/
theorem independent_keys {ε : Type} (F : String → Except ε String) (s : Store)
    (k1 k2 : String) (h : k1 ≠ k2) :
    (wrapper F s k1).store.counters ("count:" ++ k2) = s.counters ("count:" ++ k2) ∧
    (wrapper F s k1).store.cache ("cached:" ++ k2) = s.cache ("cached:" ++ k2) ∧
    (∀ q, q ≠ "count:" ++ k1 → (wrapper F s k1).store.counters q = s.counters q) ∧
    (∀ q, q ≠ "cached:" ++ k1 → (wrapper F s k1).store.cache q = s.cache q) ∧
    (wrapper F s k1).store.clock = s.clock := by
  refine ⟨?_, ?_, ?_, ?_, wrapper_clock F s k1⟩
  · exact wrapper_counters_other F s k1 _ (append_ne_append_of_ne "count:" (Ne.symm h))
  · exact wrapper_cache_other F s k1 _ (append_ne_append_of_ne "cached:" (Ne.symm h))
  · exact fun q hq => wrapper_counters_other F s k1 q hq
  · exact fun q hq => wrapper_cache_other F s k1 q hq

/-- Witness for C7 at a concrete input: a call on `A` leaves `B`'s counter and
cache, an unrelated key, and the clock unchanged. -/
theorem independent_keys_witness :
    (wrapper fetchX hitStore "A").store.counters ("count:" ++ "B")
        = hitStore.counters ("count:" ++ "B") ∧
    (wrapper fetchX hitStore "A").store.cache ("cached:" ++ "B")
        = hitStore.cache ("cached:" ++ "B") ∧
    (wrapper fetchX hitStore "A").store.counters "unrelated"
        = hitStore.counters "unrelated" ∧
    (wrapper fetchX hitStore "A").store.cache "unrelated"
        = hitStore.cache "unrelated" ∧
    (wrapper fetchX hitStore "A").store.clock = hitStore.clock := by
  obtain ⟨h1, h2, h3, h4, h5⟩ := independent_keys fetchX hitStore "A" "B" (by decide)
  exact ⟨h1, h2, h3 "unrelated" (by decide), h4 "unrelated" (by decide), h5⟩

/-- C8: the cache slot of the key is either left unchanged (hit, or failed
fetch) or written with the fetched content and an expiry of exactly
`clock + 10` — TTL fixed at 10, timer restarted from the current clock on
every write, whatever the prior entry was. -/
theorem cache_write_ttl {ε : Type} (F : String → Except ε String) (s : Store)
    (url : String) :
    (wrapper F s url).store.cache ("cached:" ++ url) = s.cache ("cached:" ++ url)
    ∨ ∃ html, F url = .ok html ∧
        (wrapper F s url).store.cache ("cached:" ++ url)
          = some (html, s.clock + 10) := by
  rcases wrapper_cases F s url with ⟨c, _, _, hw⟩ | hw
  · rw [hw]
    exact Or.inl rfl
  · rw [hw]
    rcases hF : F url with e | html
    · rw [wrapperMiss_error F _ url e hF]
      exact Or.inl rfl
    · rw [wrapperMiss_ok F _ url html hF]
      refine Or.inr ⟨html, rfl, ?_⟩
      simp

/-- C10: the wrapped function is deterministic — from extensionally equal
store states (same counters, same cache, same clock) and the same fetch
function, a call returns the same value and produces the same final state. -/
theorem wrapper_deterministic {ε : Type} (F : String → Except ε String)
    (url : String) (s1 s2 : Store)
    (hc : ∀ q, s1.counters q = s2.counters q)
    (hh : ∀ q, s1.cache q = s2.cache q)
    (ht : s1.clock = s2.clock) :
    wrapper F s1 url = wrapper F s2 url := by
  have hs : s1 = s2 := by
    cases s1
    cases s2
    simp only [Store.mk.injEq]
    exact ⟨funext hc, funext hh, ht⟩
  rw [hs]

/-- A store extensionally equal to `Store.empty` but built differently. -/
def emptyStoreVariant : Store :=
  ⟨fun _ => 0, fun q => if q = "z" then none else none, 0⟩

/-- Witness for C10 at a concrete input. -/
theorem wrapper_deterministic_witness :
    wrapper fetchX Store.empty "A" = wrapper fetchX emptyStoreVariant "A" :=
  wrapper_deterministic fetchX "A" Store.empty emptyStoreVariant
    (fun _ => rfl) (fun q => by simp [Store.empty, emptyStoreVariant]) rfl

/-- Witness for C4 at a concrete input: empty store, fetch that always fails. -/
theorem fetch_failure_propagates_witness :
    (wrapper (fun _ => (.error 7 : Except Nat String)) Store.empty "A").result
        = .error 7 ∧
      (wrapper (fun _ => (.error 7 : Except Nat String)) Store.empty "A").store.counters
        ("count:A") = Store.empty.counters "count:A" + 1 ∧
      (wrapper (fun _ => (.error 7 : Except Nat String)) Store.empty "A").store.cache
        = Store.empty.cache := by
  have h := fetch_failure_propagates (fun _ => (.error 7 : Except Nat String))
    Store.empty "A" 7 rfl rfl
  simpa using h

example :
    (wrapper (fun _ => (.ok "hello" : Except Unit String)) Store.empty "A").store.counters
      "count:A" = 1 := rfl

example :
    (wrapper (fun _ => (.ok "hello" : Except Unit String)) Store.empty "A").store.cache
      "cached:A" = some ("hello", 10) := rfl

/-- A fetch function that always succeeds with the *empty* string. -/
def fetchEmpty : String → Except Unit String := fun _ => .ok ""

/-- A fetch function that always succeeds with `"hello"`. -/
def fetchHello : String → Except Unit String := fun _ => .ok "hello"

/-- After a miss with a successful fetch, the cache entry of the key is the
fetched content with expiry `clock + 10`. -/
theorem wrapper_miss_cache_self {ε : Type} (F : String → Except ε String)
    (s : Store) (url html : String)
    (hmiss : pyTruthy (s.get ("cached:" ++ url)) = false) (hF : F url = .ok html) :
    (wrapper F s url).store.cache ("cached:" ++ url) = some (html, s.clock + 10) := by
  have hw : wrapper F s url = wrapperMiss F (s.incr ("count:" ++ url)) url := by
    rcases hg : s.get ("cached:" ++ url) with _ | c
    · exact wrapper_eq_miss_none F s url hg
    · rw [hg] at hmiss
      simp [pyTruthy] at hmiss
      subst hmiss
      exact wrapper_eq_miss_empty F s url hg
  rw [hw, wrapperMiss_ok F _ url html hF]
  simp

/-- On a miss with successful fetch, the returned value is the fetch result
and the fetch ran exactly once. -/
theorem wrapper_miss_result {ε : Type} (F : String → Except ε String)
    (s : Store) (url html : String)
    (hmiss : pyTruthy (s.get ("cached:" ++ url)) = false) (hF : F url = .ok html) :
    (wrapper F s url).result = .ok html ∧ (wrapper F s url).fetchCalls = 1 := by
  have hw : wrapper F s url = wrapperMiss F (s.incr ("count:" ++ url)) url := by
    rcases hg : s.get ("cached:" ++ url) with _ | c
    · exact wrapper_eq_miss_none F s url hg
    · rw [hg] at hmiss
      simp [pyTruthy] at hmiss
      subst hmiss
      exact wrapper_eq_miss_empty F s url hg
  rw [hw, wrapperMiss_ok F _ url html hF]
  exact ⟨rfl, rfl⟩

/-- C5 counterexample: with the deterministic fetch `fetchEmpty` (always
succeeds with `""`), two calls on `k` at clocks 0 and 1 — well inside the TTL
window of 10 — both miss and the fetch function is invoked twice, because the
cached empty payload is falsy for `if cache_html:`.  (Both calls do return
identical content; the "at most one fetch" half of the claim is what fails.) -/
theorem cache_hit_correctness_counterexample :
    ((wrapper fetchEmpty Store.empty "k").store.advance 1).clock < 10 ∧
    (wrapper fetchEmpty Store.empty "k").fetchCalls +
      (wrapper fetchEmpty ((wrapper fetchEmpty Store.empty "k").store.advance 1)
        "k").fetchCalls = 2 :=
  ⟨by decide, rfl⟩

/-- C5 (amended: the deterministic fetch must succeed with *non-empty*
content, since a cached empty payload is falsy and misses again): two calls on
the same key within the TTL window — the second no later than 10 units after
the first, and any entry alive at the first call still alive at the second —
return identical results and invoke the fetch function at most once in total. -/
theorem cache_hit_correctness {ε : Type} (F : String → Except ε String)
    (s : Store) (url c : String) (d : Nat)
    (hF : F url = .ok c) (hc : c ≠ "") (hd : d < 10)
    (hlive : ∀ c0 e, s.cache ("cached:" ++ url) = some (c0, e) →
      s.clock < e → s.clock + d < e) :
    (wrapper F s url).result
        = (wrapper F ((wrapper F s url).store.advance d) url).result ∧
    (wrapper F s url).fetchCalls
        + (wrapper F ((wrapper F s url).store.advance d) url).fetchCalls ≤ 1 := by
  rcases hhit : pyTruthy (s.get ("cached:" ++ url)) with _ | _
  · -- first call misses (absent, expired or empty entry), caches c
    obtain ⟨hr1, hf1⟩ := wrapper_miss_result F s url c hhit hF
    have hcache : (wrapper F s url).store.cache ("cached:" ++ url)
        = some (c, s.clock + 10) := wrapper_miss_cache_self F s url c hhit hF
    have hg2 : (((wrapper F s url).store.advance d)).get ("cached:" ++ url)
        = some c := by
      rw [Store.get_eq_of_cache _ _ c (s.clock + 10) (by simpa using hcache)]
      rw [if_pos]
      rw [Store.clock_advance, wrapper_clock]
      omega
    rw [wrapper_eq_hit F _ url c hg2 hc]
    rw [hr1, hf1]
    exact ⟨rfl, by simp⟩
  · -- first call hits a live non-empty entry, which is still live at the second
    rcases hget : s.get ("cached:" ++ url) with _ | c0
    · rw [hget] at hhit
      simp [pyTruthy] at hhit
    · rw [hget] at hhit
      have hc0 : c0 ≠ "" := by
        simpa [pyTruthy] using hhit
      rcases hcache : s.cache ("cached:" ++ url) with _ | p
      · rw [Store.get_eq_none_of_cache s _ hcache] at hget
        cases hget
      · rcases p with ⟨c0', e⟩
        rw [Store.get_eq_of_cache s _ c0' e hcache] at hget
        by_cases hlt : s.clock < e
        · rw [if_pos hlt] at hget
          have hce : c0' = c0 := by injection hget
          rw [hce] at hcache
          have he2 : s.clock + d < e := hlive c0 e hcache hlt
          rw [wrapper_eq_hit F s url c0 (by
            rw [Store.get_eq_of_cache s _ c0 e hcache, if_pos hlt]) hc0]
          have hg2 : ((Store.incr s ("count:" ++ url)).advance d).get
              ("cached:" ++ url) = some c0 := by
            rw [Store.get_eq_of_cache _ _ c0 e (by simpa using hcache)]
            rw [if_pos]
            simpa using he2
          rw [wrapper_eq_hit F _ url c0 hg2 hc0]
          exact ⟨rfl, by simp⟩
        · rw [if_neg hlt] at hget
          cases hget

/-- Witness for C5 at a concrete input: empty store, fetch `"hello"`, second
call one time unit later; one fetch in total, identical results. -/
theorem cache_hit_correctness_witness :
    (wrapper fetchHello Store.empty "A").result
        = (wrapper fetchHello ((wrapper fetchHello Store.empty "A").store.advance 1)
            "A").result ∧
    (wrapper fetchHello Store.empty "A").fetchCalls
        + (wrapper fetchHello ((wrapper fetchHello Store.empty "A").store.advance 1)
            "A").fetchCalls ≤ 1 :=
  cache_hit_correctness fetchHello Store.empty "A" "hello" 1 rfl (by decide)
    (by decide) (fun c0 e hce _ => by simp [Store.empty] at hce)

/-- C6: starting from an absent (or expired) entry, a first call fetches once
and caches; if time then advances past the TTL (at least 10 units), the entry
has expired — the store reports it absent — so the second call is a cache miss
and invokes the underlying fetch function a second time. -/
theorem expiry_correctness {ε : Type} (F : String → Except ε String)
    (s : Store) (url html : String) (d : Nat)
    (hg : s.get ("cached:" ++ url) = none) (hF : F url = .ok html) (hd : 10 ≤ d) :
    (wrapper F s url).fetchCalls = 1 ∧
    ((wrapper F s url).store.advance d).get ("cached:" ++ url) = none ∧
    (wrapper F ((wrapper F s url).store.advance d) url).fetchCalls = 1 := by
  have hmiss : pyTruthy (s.get ("cached:" ++ url)) = false := by
    rw [hg]
    rfl
  obtain ⟨_, hf1⟩ := wrapper_miss_result F s url html hmiss hF
  have hcache : (wrapper F s url).store.cache ("cached:" ++ url)
      = some (html, s.clock + 10) := wrapper_miss_cache_self F s url html hmiss hF
  have hg2 : ((wrapper F s url).store.advance d).get ("cached:" ++ url) = none := by
    rw [Store.get_eq_of_cache _ _ html (s.clock + 10) (by simpa using hcache)]
    rw [if_neg]
    rw [Store.clock_advance, wrapper_clock]
    omega
  refine ⟨hf1, hg2, ?_⟩
  rw [wrapper_eq_miss_none F _ url hg2]
  rcases hF2 : F url with e | h2
  · rw [wrapperMiss_error F _ url e hF2]
  · rw [wrapperMiss_ok F _ url h2 hF2]

/-- Witness for C6 at a concrete input: empty store, fetch `"hello"`, second
call 10 time units later. -/
theorem expiry_correctness_witness :
    (wrapper fetchHello Store.empty "A").fetchCalls = 1 ∧
    ((wrapper fetchHello Store.empty "A").store.advance 10).get ("cached:" ++ "A")
        = none ∧
    (wrapper fetchHello ((wrapper fetchHello Store.empty "A").store.advance 10)
        "A").fetchCalls = 1 :=
  expiry_correctness fetchHello Store.empty "A" "hello" 10 rfl rfl (by decide)

/-! ## Byte-level UTF-8 model

`r.setex` stores the UTF-8 encoding of the `str` payload and the hit path
decodes it with `.decode('utf-8')`.  The model above carries the payload as a
`String`; the definitions below give the byte level and prove that decoding
the encoding is the identity, so the two views agree. -/

/-- UTF-8 encoding of one Unicode scalar value `n` as its list of byte values. -/
def utf8EncodeCharNat (n : Nat) : List Nat :=
  if n < 0x80 then [n]
  else if n < 0x800 then [0xC0 + n / 64, 0x80 + n % 64]
  else if n < 0x10000 then [0xE0 + n / 4096, 0x80 + n / 64 % 64, 0x80 + n % 64]
  else [0xF0 + n / 262144, 0x80 + n / 4096 % 64, 0x80 + n / 64 % 64, 0x80 + n % 64]

/-- The UTF-8 bytes of a character list: what redis stores for a `str`. -/
def utf8EncodeList : List Char → List Nat
  | [] => []
  | ch :: cs => utf8EncodeCharNat ch.toNat ++ utf8EncodeList cs

/-- Tests for a UTF-8 continuation byte `10xxxxxx`. -/
def isCont (b : Nat) : Bool := decide (0x80 ≤ b) && decide (b < 0xC0)

/-- Decode the tail of a two-byte sequence with leading byte `b0`; returns the
scalar value and the number of continuation bytes consumed. -/
def decodeTail2 (b0 : Nat) : List Nat → Option (Nat × Nat)
  | b1 :: _ =>
    if isCont b1 then
      if 0x80 ≤ (b0 - 0xC0) * 64 + (b1 - 0x80) then
        some ((b0 - 0xC0) * 64 + (b1 - 0x80), 1)
      else none
    else none
  | [] => none

/-- Decode the tail of a three-byte sequence with leading byte `b0`. -/
def decodeTail3 (b0 : Nat) : List Nat → Option (Nat × Nat)
  | b1 :: b2 :: _ =>
    if isCont b1 && isCont b2 then
      if 0x800 ≤ (b0 - 0xE0) * 4096 + (b1 - 0x80) * 64 + (b2 - 0x80) then
        some ((b0 - 0xE0) * 4096 + (b1 - 0x80) * 64 + (b2 - 0x80), 2)
      else none
    else none
  | _ => none

/-- Decode the tail of a four-byte sequence with leading byte `b0`. -/
def decodeTail4 (b0 : Nat) : List Nat → Option (Nat × Nat)
  | b1 :: b2 :: b3 :: _ =>
    if isCont b1 && isCont b2 && isCont b3 then
      if 0x10000 ≤ (b0 - 0xF0) * 262144 + (b1 - 0x80) * 4096
          + (b2 - 0x80) * 64 + (b3 - 0x80) then
        some ((b0 - 0xF0) * 262144 + (b1 - 0x80) * 4096
          + (b2 - 0x80) * 64 + (b3 - 0x80), 3)
      else none
    else none
  | _ => none

/-- Decode one UTF-8 sequence: leading byte `b0`, following bytes `bs`.
Returns the scalar value and how many bytes of `bs` were consumed, or `none`
on a malformed sequence (stray or missing continuation bytes, overlong form). -/
def utf8DecodeOne (b0 : Nat) (bs : List Nat) : Option (Nat × Nat) :=
  if b0 < 0x80 then some (b0, 0)
  else if b0 < 0xC0 then none
  else if b0 < 0xE0 then decodeTail2 b0 bs
  else if b0 < 0xF0 then decodeTail3 b0 bs
  else if b0 < 0xF8 then decodeTail4 b0 bs
  else none

/-- Pack a decoded scalar value into a `Char`, rejecting invalid ones
(surrogates and values above `0x10FFFF`). -/
def charOfNat? (n : Nat) : Option Char :=
  if Nat.isValidChar n then some (Char.ofNat n) else none

/-- UTF-8 decoding (`bytes.decode('utf-8')`): `none` on malformed input. -/
def utf8DecodeList : List Nat → Option (List Char)
  | [] => some []
  | b0 :: bs =>
    match utf8DecodeOne b0 bs with
    | none => none
    | some (n, k) =>
      (charOfNat? n).bind fun ch => (utf8DecodeList (bs.drop k)).map fun cs => ch :: cs
termination_by l => l.length
decreasing_by
  simp only [List.length_cons, List.length_drop]
  omega

/-- A character's scalar value is a valid code point. -/
theorem char_toNat_isValidChar (c : Char) : Nat.isValidChar c.toNat := c.valid

/-- Packing a character's own scalar value gives back the character. -/
theorem charOfNat?_toNat (c : Char) : charOfNat? c.toNat = some c := by
  rw [charOfNat?, if_pos (char_toNat_isValidChar c), Char.ofNat_toNat]

/-- One-step decoding of a one-byte (ASCII) sequence. -/
theorem utf8DecodeOne_one {n : Nat} (h : n < 0x80) (bs : List Nat) :
    utf8DecodeOne n bs = some (n, 0) := by
  rw [utf8DecodeOne, if_pos h]

/-- One-step decoding of an encoded two-byte sequence. -/
theorem utf8DecodeOne_two {n : Nat} (h1 : 0x80 ≤ n) (h2 : n < 0x800) (bs : List Nat) :
    utf8DecodeOne (0xC0 + n / 64) ((0x80 + n % 64) :: bs) = some (n, 1) := by
  rw [utf8DecodeOne, if_neg (by omega), if_neg (by omega), if_pos (by omega)]
  rw [decodeTail2]
  have hcont : isCont (0x80 + n % 64) = true := by
    simp only [isCont, Bool.and_eq_true, decide_eq_true_eq]
    omega
  rw [if_pos hcont]
  have harith : (0xC0 + n / 64 - 0xC0) * 64 + (0x80 + n % 64 - 0x80) = n := by
    omega
  rw [harith, if_pos (by omega)]

/-- One-step decoding of an encoded three-byte sequence. -/
theorem utf8DecodeOne_three {n : Nat} (h1 : 0x800 ≤ n) (h2 : n < 0x10000)
    (bs : List Nat) :
    utf8DecodeOne (0xE0 + n / 4096) ((0x80 + n / 64 % 64) :: (0x80 + n % 64) :: bs)
      = some (n, 2) := by
  rw [utf8DecodeOne, if_neg (by omega), if_neg (by omega), if_neg (by omega),
    if_pos (by omega)]
  rw [decodeTail3]
  have hcont : (isCont (0x80 + n / 64 % 64) && isCont (0x80 + n % 64)) = true := by
    simp only [isCont, Bool.and_eq_true, decide_eq_true_eq]
    omega
  rw [if_pos hcont]
  have harith : (0xE0 + n / 4096 - 0xE0) * 4096 + (0x80 + n / 64 % 64 - 0x80) * 64
      + (0x80 + n % 64 - 0x80) = n := by
    omega
  rw [harith, if_pos (by omega)]

/-- One-step decoding of an encoded four-byte sequence. -/
theorem utf8DecodeOne_four {n : Nat} (h1 : 0x10000 ≤ n) (h2 : n < 0x110000)
    (bs : List Nat) :
    utf8DecodeOne (0xF0 + n / 262144)
        ((0x80 + n / 4096 % 64) :: (0x80 + n / 64 % 64) :: (0x80 + n % 64) :: bs)
      = some (n, 3) := by
  rw [utf8DecodeOne, if_neg (by omega), if_neg (by omega), if_neg (by omega),
    if_neg (by omega), if_pos (by omega)]
  rw [decodeTail4]
  have hcont : (isCont (0x80 + n / 4096 % 64) && isCont (0x80 + n / 64 % 64)
      && isCont (0x80 + n % 64)) = true := by
    simp only [isCont, Bool.and_eq_true, decide_eq_true_eq]
    omega
  rw [if_pos hcont]
  have harith : (0xF0 + n / 262144 - 0xF0) * 262144
      + (0x80 + n / 4096 % 64 - 0x80) * 4096
      + (0x80 + n / 64 % 64 - 0x80) * 64 + (0x80 + n % 64 - 0x80) = n := by
    omega
  rw [harith, if_pos (by omega)]

/-- Decoding the encoding of one character prepended to any byte tail decodes
the character and continues on the tail. -/
theorem utf8DecodeList_encodeChar (ch : Char) (rest : List Nat) :
    utf8DecodeList (utf8EncodeCharNat ch.toNat ++ rest)
      = (utf8DecodeList rest).map fun cs => ch :: cs := by
  have hv := char_toNat_isValidChar ch
  have hcc := charOfNat?_toNat ch
  have hub : ch.toNat < 0x110000 := by
    rcases hv with h | ⟨ha, hb⟩ <;> omega
  by_cases h1 : ch.toNat < 0x80
  · rw [utf8EncodeCharNat, if_pos h1]
    simp only [List.cons_append, List.nil_append, utf8DecodeList,
      utf8DecodeOne_one h1, List.drop_zero, hcc, Option.some_bind]
  · by_cases h2 : ch.toNat < 0x800
    · rw [utf8EncodeCharNat, if_neg h1, if_pos h2]
      simp only [List.cons_append, List.nil_append, utf8DecodeList,
        utf8DecodeOne_two (by omega) h2, List.drop_succ_cons, List.drop_zero,
        hcc, Option.some_bind]
    · by_cases h3 : ch.toNat < 0x10000
      · rw [utf8EncodeCharNat, if_neg h1, if_neg h2, if_pos h3]
        simp only [List.cons_append, List.nil_append, utf8DecodeList,
          utf8DecodeOne_three (by omega) h3, List.drop_succ_cons, List.drop_zero,
          hcc, Option.some_bind]
      · rw [utf8EncodeCharNat, if_neg h1, if_neg h2, if_neg h3]
        simp only [List.cons_append, List.nil_append, utf8DecodeList,
          utf8DecodeOne_four (by omega) hub, List.drop_succ_cons, List.drop_zero,
          hcc, Option.some_bind]

/-- UTF-8 round trip: decoding the encoding of any character list returns
exactly that list. -/
theorem utf8DecodeList_utf8EncodeList (cs : List Char) :
    utf8DecodeList (utf8EncodeList cs) = some cs := by
  induction cs with
  | nil =>
    rw [utf8EncodeList, utf8DecodeList]
  | cons ch cs ih =>
    rw [utf8EncodeList, utf8DecodeList_encodeChar, ih]
    rfl

/-- The encoding of a single character is never empty. -/
theorem utf8EncodeCharNat_ne_nil (n : Nat) : utf8EncodeCharNat n ≠ [] := by
  rw [utf8EncodeCharNat]
  split
  · simp
  · split
    · simp
    · split <;> simp

/-- The UTF-8 encoding is empty exactly for the empty character list, so byte
truthiness (`if cache_html:` on the stored bytes) coincides with string
truthiness of the payload. -/
theorem utf8EncodeList_eq_nil_iff (cs : List Char) :
    utf8EncodeList cs = [] ↔ cs = [] := by
  cases cs with
  | nil => simp [utf8EncodeList]
  | cons ch cs =>
    simp only [utf8EncodeList, List.append_eq_nil]
    constructor
    · rintro ⟨henc, -⟩
      exact absurd henc (utf8EncodeCharNat_ne_nil ch.toNat)
    · intro h
      cases h

/-- C9: content `c` stored on a miss round-trips.  The miss call returns the
fetch result directly, with no encode/decode step; the decode that a later hit
performs on the stored UTF-8 bytes recovers exactly `c` (this holds for every
string, all of whose characters are Unicode scalars and hence UTF-8
encodable); and a later call within the TTL is indeed a hit returning `c`. -/
theorem cached_content_roundtrip {ε : Type} (F : String → Except ε String)
    (s : Store) (url c : String) (d : Nat)
    (hmiss : pyTruthy (s.get ("cached:" ++ url)) = false)
    (hF : F url = .ok c) (hc : c ≠ "") (hd : d < 10) :
    (wrapper F s url).result = .ok c ∧
    utf8DecodeList (utf8EncodeList c.data) = some c.data ∧
    (wrapper F ((wrapper F s url).store.advance d) url).fetchCalls = 0 ∧
    (wrapper F ((wrapper F s url).store.advance d) url).result = .ok c := by
  obtain ⟨hr1, -⟩ := wrapper_miss_result F s url c hmiss hF
  have hcache := wrapper_miss_cache_self F s url c hmiss hF
  have hg2 : ((wrapper F s url).store.advance d).get ("cached:" ++ url)
      = some c := by
    rw [Store.get_eq_of_cache _ _ c (s.clock + 10) (by simpa using hcache), if_pos]
    rw [Store.clock_advance, wrapper_clock]
    omega
  rw [wrapper_eq_hit F _ url c hg2 hc]
  exact ⟨hr1, utf8DecodeList_utf8EncodeList c.data, rfl, rfl⟩

/-- Witness for C9 at a concrete input: `"hello"` cached at clock 0, hit at
clock 1. -/
theorem cached_content_roundtrip_witness :
    (wrapper fetchHello Store.empty "A").result = .ok "hello" ∧
    utf8DecodeList (utf8EncodeList ("hello".data)) = some ("hello".data) ∧
    (wrapper fetchHello ((wrapper fetchHello Store.empty "A").store.advance 1)
        "A").fetchCalls = 0 ∧
    (wrapper fetchHello ((wrapper fetchHello Store.empty "A").store.advance 1)
        "A").result = .ok "hello" :=
  cached_content_roundtrip fetchHello Store.empty "A" "hello" 1 rfl rfl
    (by decide) (by decide)
